import Mathlib

/-!
# Verification of the chat-client send/reset reconciliation logic

Shallow embedding of the frontend source (`src/frontend/src/api.js`): the
API client (`sendMessage`, `resetChat`) and the conversation view's state
transitions (`toggleTag`, `handleSend`, `handleReset`).

The network is modelled by an explicit outcome value describing what the
`fetch` call does: a transport-level failure, or a response with an HTTP
status, an arrival time (milliseconds since the request was issued), an
optional readable body text and an optional JSON-decoded payload.  The
browser clock `Date.now()` is a parameter `now`.  The abort and
JSON-decode rejection messages of the browser are modelled by fixed
constants, since only their presence (not their wording) matters.
-/

namespace ChatClient

/-- A conversation entry, as held in the view's `history` state.
`isLoading` is `false` for entries whose JS object lacks the `isLoading`
field (the falsy `undefined`). -/
structure Message where
  id : String
  author : String
  role : String
  content : String
  ts : Nat
  isLoading : Bool := false
deriving DecidableEq

/-- The JSON payload of a successful `POST /api/send`:
`{ userMessageId, replies }`. -/
structure SendResponse where
  userMessageId : String
  replies : List Message
deriving DecidableEq

/-- What the underlying `fetch` of `POST /api/send` does, from the
client's point of view: either the transport fails (connection refused,
DNS failure, ...) with an error message, or a response arrives
`arrivalMs` milliseconds after the request with the given HTTP `status`;
`bodyText` is `none` when reading the body text fails, and `bodyJson` is
`none` when the body does not decode as a `SendResponse`. -/
inductive SendFetchOutcome where
  | networkError (msg : String)
  | response (arrivalMs : Nat) (status : Nat) (bodyText : Option String)
      (bodyJson : Option SendResponse)
deriving DecidableEq

/-- `Response.ok` of the Fetch API: the status is in the 2xx range. -/
def okStatus (status : Nat) : Bool :=
  200 ≤ status && status ≤ 299

/-- Message of the DOMException produced when the `AbortController`
cancels the in-flight request (modelling constant). -/
def abortErrorMessage : String := "The operation was aborted"

/-- Message of the rejection produced when `response.json()` fails to
decode the body (modelling constant). -/
def jsonDecodeErrorMessage : String := "Unexpected end of JSON input"

/-- Default of the `timeoutMs` parameter of `sendMessage`
(`timeoutMs = 60000` in the source). -/
def defaultSendTimeoutMs : Nat := 60000

/-- `sendMessage(content, tags, timeoutMs)` from `api.js`: posts
`{ content, tags }` to `/api/send` with an abort timer of `timeoutMs`
milliseconds.  If the response has not arrived within the timeout the
request is aborted and the rejection surfaces as an error; otherwise a
non-2xx status raises `POST /send failed: <status> <text>` where the
body text is replaced by `""` when it cannot be read
(`.catch(() => "")`); on a 2xx status the decoded JSON body is returned,
a decode failure propagating as an error. -/
def sendMessage (env : SendFetchOutcome) (content : String)
    (tags : List String) (timeoutMs : Nat) : Except String SendResponse :=
  match content, tags, env with
  | _, _, SendFetchOutcome.networkError msg => Except.error msg
  | _, _, SendFetchOutcome.response arrivalMs status bodyText bodyJson =>
    if timeoutMs < arrivalMs then
      Except.error abortErrorMessage
    else if okStatus status then
      match bodyJson with
      | some r => Except.ok r
      | none => Except.error jsonDecodeErrorMessage
    else
      Except.error ("POST /send failed: " ++ Nat.repr status ++ " "
        ++ bodyText.getD "")

/-- What the `fetch` of `POST /api/reset` does: transport failure, or a
response with an HTTP status; `jsonParses` records whether the body
decodes as JSON (`resetChat` returns `response.json()`, whose value the
caller discards but whose failure propagates). -/
inductive ResetFetchOutcome where
  | networkError (msg : String)
  | response (status : Nat) (jsonParses : Bool)
deriving DecidableEq

/-- `resetChat()` from `api.js`: posts to `/api/reset`; a non-2xx status
raises `POST /reset failed: <status>`; on a 2xx status it returns
`response.json()`, so a body that fails to decode rejects the call even
though the decoded value itself is discarded by the caller (hence the
result is modelled as `Unit`). -/
def resetChat (env : ResetFetchOutcome) : Except String Unit :=
  match env with
  | ResetFetchOutcome.networkError msg => Except.error msg
  | ResetFetchOutcome.response status jsonParses =>
    if okStatus status then
      if jsonParses then Except.ok () else Except.error jsonDecodeErrorMessage
    else
      Except.error ("POST /reset failed: " ++ Nat.repr status)

/-- `content.trim()` of JS: the string with leading and trailing
whitespace removed (modelled transparently on the character list). -/
def jsTrim (s : String) : String :=
  ⟨((s.data.dropWhile Char.isWhitespace).reverse.dropWhile Char.isWhitespace).reverse⟩

/-- The state owned by the `App` component: `history`, `content`
(composer text), `selectedTags`, `isLoading` (send in flight) and
`error`. -/
structure ViewState where
  history : List Message
  content : String
  selectedTags : List String
  isLoading : Bool
  error : Option String
deriving DecidableEq

/-- `toggleTag(tag)` applied to the previous selection: remove every
occurrence if present (`prev.filter((t) => t !== tag)`), otherwise
append at the end (`[...prev, tag]`). -/
def toggleTag (tag : String) (prev : List String) : List String :=
  if prev.contains tag then
    prev.filter (fun t => t != tag)
  else
    prev ++ [tag]

/-- The temporary id generated for the optimistic user message:
`` `temp_${Date.now()}` ``. -/
def tempUserMessageId (now : Nat) : String :=
  "temp_" ++ Nat.repr now

/-- The id generated for the `index`-th loading placeholder:
`` `loading_${Date.now()}_${index}` ``. -/
def loadingMessageId (now index : Nat) : String :=
  "loading_" ++ Nat.repr now ++ "_" ++ Nat.repr index

/-- The optimistic user message synthesized in `handleSend`. -/
def mkUserMessage (text : String) (now : Nat) : Message :=
  { id := tempUserMessageId now
    author := "user"
    role := "user"
    content := text
    ts := now
    isLoading := false }

/-- The loading placeholder synthesized for `tag` at position `index`:
author is `tag.slice(1)` (the `@` marker removed), timestamp is
`Date.now() + index + 1`. -/
def mkLoadingMessage (now index : Nat) (tag : String) : Message :=
  { id := loadingMessageId now index
    author := tag.drop 1
    role := "assistant"
    content := "Thinking..."
    ts := now + index + 1
    isLoading := true }

/-- `tagsToSend.map((tag, index) => ...)` starting at position `index`:
one loading placeholder per tag, indices increasing along the list. -/
def mkLoadingMessagesFrom (now : Nat) : Nat → List String → List Message
  | _, [] => []
  | index, tag :: rest =>
      mkLoadingMessage now index tag :: mkLoadingMessagesFrom now (index + 1) rest

/-- The full placeholder list of a send: one per selected tag, in
selection order, indices from 0. -/
def mkLoadingMessages (now : Nat) (tags : List String) : List Message :=
  mkLoadingMessagesFrom now 0 tags

/-- The guard at the top of `handleSend`:
`!content.trim() || selectedTags.length === 0 || isLoading`. -/
def sendBlocked (s : ViewState) : Bool :=
  (jsTrim s.content == "") || s.selectedTags.isEmpty || s.isLoading

/-- The view state after the optimistic phase of `handleSend`: one
`setHistory` appending the user message and all placeholders, then
`setContent("")`, `setIsLoading(true)`, `setError(null)` — all before
the network response arrives. -/
def afterOptimistic (s : ViewState) (now : Nat) : ViewState :=
  { history := s.history
      ++ mkUserMessage (jsTrim s.content) now :: mkLoadingMessages now s.selectedTags
    content := ""
    selectedTags := s.selectedTags
    isLoading := true
    error := none }

/-- The success-path `setHistory` update: drop every loading entry,
patch the entry whose id equals the temporary id to the server-issued
id, then append the server's replies. -/
def successHistory (prev : List Message) (tempId serverId : String)
    (replies : List Message) : List Message :=
  let withoutLoading := prev.filter (fun msg => !msg.isLoading)
  let updatedHistory := withoutLoading.map (fun msg =>
    if msg.id = tempId then { msg with id := serverId } else msg)
  updatedHistory ++ replies

/-- The failure-path `setHistory` update: drop every loading entry. -/
def failureHistory (prev : List Message) : List Message :=
  prev.filter (fun msg => !msg.isLoading)

/-- `handleSend` from `App`: returns the final view state together with
the network request issued (`some (content, tags)` passed to
`sendMessage`, or `none` when the guard fires and nothing happens).
`now` is the value of `Date.now()` during the synchronous optimistic
phase; `env` is the behaviour of the underlying `fetch`. -/
def handleSend (s : ViewState) (now : Nat) (env : SendFetchOutcome) :
    ViewState × Option (String × List String) :=
  if sendBlocked s then
    (s, none)
  else
    let messageContent := jsTrim s.content
    let tagsToSend := s.selectedTags
    let s1 := afterOptimistic s now
    match sendMessage env messageContent tagsToSend defaultSendTimeoutMs with
    | Except.ok resp =>
        ({ s1 with
            history := successHistory s1.history (tempUserMessageId now)
              resp.userMessageId resp.replies
            isLoading := false },
         some (messageContent, tagsToSend))
    | Except.error msg =>
        ({ s1 with
            history := failureHistory s1.history
            error := some ("Failed to send message: " ++ msg)
            isLoading := false },
         some (messageContent, tagsToSend))

/-- `handleReset` from `App`: on a successful `resetChat`, empty the
history and clear the error; on failure, set the error and leave the
history untouched. -/
def handleReset (s : ViewState) (env : ResetFetchOutcome) : ViewState :=
  match resetChat env with
  | Except.ok _ => { s with history := [], error := none }
  | Except.error msg => { s with error := some ("Failed to reset chat: " ++ msg) }

/-- Numeric value of a decimal digit character (proof tool for reading
back `Nat.repr`). -/
def decDigitVal (c : Char) : Nat := c.toNat - '0'.toNat

/-- Value of a list of decimal digit characters, most significant
first (proof tool for reading back `Nat.repr`). -/
def decVal (cs : List Char) : Nat :=
  cs.foldl (fun acc c => 10 * acc + decDigitVal c) 0

/-! ## Helper lemmas

`Nat.repr` (the rendering of `Date.now()` inside the generated ids) is
injective; the generated ids of one send are therefore pairwise
distinct. -/

lemma toDigitsCore_append (fuel : Nat) :
    ∀ (n : Nat) (acc : List Char),
      Nat.toDigitsCore 10 fuel n acc = Nat.toDigitsCore 10 fuel n [] ++ acc := by
  induction fuel with
  | zero => intro n acc; simp [Nat.toDigitsCore]
  | succ fuel ih =>
    intro n acc
    simp only [Nat.toDigitsCore]
    by_cases h : n / 10 = 0
    · simp [h]
    · simp only [h, if_false]
      rw [ih (n / 10) (Nat.digitChar (n % 10) :: acc),
        ih (n / 10) [Nat.digitChar (n % 10)]]
      simp

lemma toDigitsCore_fuel (n : Nat) : ∀ fuel₁ fuel₂ acc, n < fuel₁ → n < fuel₂ →
    Nat.toDigitsCore 10 fuel₁ n acc = Nat.toDigitsCore 10 fuel₂ n acc := by
  induction n using Nat.strong_induction_on with
  | _ n ih =>
    intro fuel₁ fuel₂ acc h₁ h₂
    cases fuel₁ with
    | zero => omega
    | succ f₁ =>
      cases fuel₂ with
      | zero => omega
      | succ f₂ =>
        simp only [Nat.toDigitsCore]
        by_cases h : n / 10 = 0
        · simp [h]
        · simp only [h, if_false]
          exact ih (n / 10) (by omega) f₁ f₂ _ (by omega) (by omega)

lemma toDigits_eq_of_lt (n : Nat) (h : n < 10) :
    Nat.toDigits 10 n = [Nat.digitChar n] := by
  show Nat.toDigitsCore 10 (n + 1) n [] = _
  simp only [Nat.toDigitsCore]
  have h0 : n / 10 = 0 := Nat.div_eq_of_lt h
  simp [h0, Nat.mod_eq_of_lt h]

lemma toDigits_eq_of_ge (n : Nat) (h : 10 ≤ n) :
    Nat.toDigits 10 n = Nat.toDigits 10 (n / 10) ++ [Nat.digitChar (n % 10)] := by
  show Nat.toDigitsCore 10 (n + 1) n [] = _
  have h0 : n / 10 ≠ 0 := by omega
  simp only [Nat.toDigitsCore]
  rw [if_neg h0, toDigitsCore_append]
  congr 1
  exact toDigitsCore_fuel (n / 10) n (n / 10 + 1) [] (by omega) (by omega)

lemma decDigitVal_digitChar (d : Nat) (h : d < 10) :
    decDigitVal (Nat.digitChar d) = d := by
  interval_cases d <;> decide

lemma decVal_append_singleton (l : List Char) (c : Char) :
    decVal (l ++ [c]) = 10 * decVal l + decDigitVal c := by
  simp [decVal, List.foldl_append]

lemma decVal_toDigits (n : Nat) : decVal (Nat.toDigits 10 n) = n := by
  induction n using Nat.strong_induction_on with
  | _ n ih =>
    by_cases h : n < 10
    · rw [toDigits_eq_of_lt n h]
      simp [decVal, decDigitVal_digitChar n h]
    · push_neg at h
      rw [toDigits_eq_of_ge n h, decVal_append_singleton,
        ih (n / 10) (by omega), decDigitVal_digitChar (n % 10) (by omega)]
      omega

lemma nat_repr_inj {m n : Nat} (h : Nat.repr m = Nat.repr n) : m = n := by
  have hd : Nat.toDigits 10 m = Nat.toDigits 10 n := congrArg String.data h
  calc m = decVal (Nat.toDigits 10 m) := (decVal_toDigits m).symm
    _ = decVal (Nat.toDigits 10 n) := by rw [hd]
    _ = n := decVal_toDigits n

lemma loadingMessageId_inj {now i j : Nat}
    (h : loadingMessageId now i = loadingMessageId now j) : i = j := by
  unfold loadingMessageId at h
  have hd := congrArg String.data h
  simp only [String.data_append] at hd
  have h1 := List.append_cancel_left hd
  have h3 : Nat.toDigits 10 i = Nat.toDigits 10 j := h1
  calc i = decVal (Nat.toDigits 10 i) := (decVal_toDigits i).symm
    _ = decVal (Nat.toDigits 10 j) := by rw [h3]
    _ = j := decVal_toDigits j

lemma tempUserMessageId_ne_loadingMessageId (now now' i : Nat) :
    tempUserMessageId now ≠ loadingMessageId now' i := by
  intro h
  unfold tempUserMessageId loadingMessageId at h
  have hd := congrArg String.data h
  simp only [String.data_append] at hd
  exact absurd (List.head_eq_of_cons_eq hd) (by decide)

lemma toggleTag_of_not_mem {tag : String} {l : List String} (h : tag ∉ l) :
    toggleTag tag l = l ++ [tag] := by
  unfold toggleTag
  rw [if_neg (by simpa using h)]

lemma toggleTag_of_mem {tag : String} {l : List String} (h : tag ∈ l) :
    toggleTag tag l = l.filter (fun t => t != tag) := by
  unfold toggleTag
  rw [if_pos (by simpa using h)]

lemma filter_ne_of_not_mem {tag : String} {l : List String} (h : tag ∉ l) :
    l.filter (fun t => t != tag) = l := by
  apply List.filter_eq_self.mpr
  intro t ht
  simp only [bne_iff_ne, ne_eq, decide_eq_true_eq]
  intro hEq
  exact h (hEq ▸ ht)

lemma mkLoadingMessagesFrom_length (now : Nat) :
    ∀ (start : Nat) (tags : List String),
      (mkLoadingMessagesFrom now start tags).length = tags.length := by
  intro start tags
  induction tags generalizing start with
  | nil => rfl
  | cons t rest ih => simp [mkLoadingMessagesFrom, ih]

lemma mkLoadingMessagesFrom_cons (now start : Nat) (t : String)
    (rest : List String) :
    mkLoadingMessagesFrom now start (t :: rest)
      = mkLoadingMessage now start t :: mkLoadingMessagesFrom now (start + 1) rest := rfl

lemma mkLoadingMessagesFrom_getElem? (now : Nat) :
    ∀ (start i : Nat) (tags : List String) (tag : String),
      tags[i]? = some tag →
      (mkLoadingMessagesFrom now start tags)[i]?
        = some (mkLoadingMessage now (start + i) tag) := by
  intro start i tags
  induction tags generalizing start i with
  | nil =>
    intro tag h
    simp at h
  | cons t rest ih =>
    intro tag h
    cases i with
    | zero =>
      simp only [List.getElem?_cons_zero, Option.some_inj] at h
      subst h
      rw [mkLoadingMessagesFrom_cons, List.getElem?_cons_zero, Nat.add_zero]
    | succ i =>
      simp only [List.getElem?_cons_succ] at h
      rw [mkLoadingMessagesFrom_cons, List.getElem?_cons_succ]
      have harith : start + (i + 1) = (start + 1) + i := by omega
      rw [harith]
      exact ih (start + 1) i tag h

lemma mem_mkLoadingMessagesFrom {now : Nat} {m : Message} :
    ∀ {start : Nat} {tags : List String}, m ∈ mkLoadingMessagesFrom now start tags →
      ∃ i tag, start ≤ i ∧ m = mkLoadingMessage now i tag := by
  intro start tags
  induction tags generalizing start with
  | nil =>
    intro h
    simp [mkLoadingMessagesFrom] at h
  | cons t rest ih =>
    intro h
    simp only [mkLoadingMessagesFrom, List.mem_cons] at h
    rcases h with h | h
    · exact ⟨start, t, le_refl _, h⟩
    · obtain ⟨i, tag, hle, hm⟩ := ih h
      exact ⟨i, tag, by omega, hm⟩

lemma isLoading_of_mem_mkLoadingMessagesFrom {now start : Nat} {m : Message}
    {tags : List String}
    (h : m ∈ mkLoadingMessagesFrom now start tags) : m.isLoading = true := by
  obtain ⟨i, tag, _, hm⟩ := mem_mkLoadingMessagesFrom h
  rw [hm]
  rfl

lemma ts_of_getElem?_mkLoadingMessagesFrom (now : Nat) :
    ∀ (start : Nat) (tags : List String) (i : Nat) (m : Message),
      (mkLoadingMessagesFrom now start tags)[i]? = some m →
      m.ts = now + start + i + 1 := by
  intro start tags
  induction tags generalizing start with
  | nil =>
    intro i m h
    simp [mkLoadingMessagesFrom] at h
  | cons t rest ih =>
    intro i m h
    cases i with
    | zero =>
      simp only [mkLoadingMessagesFrom, List.getElem?_cons_zero, Option.some_inj] at h
      rw [← h]
      show now + start + 1 = now + start + 0 + 1
      omega
    | succ i =>
      simp only [mkLoadingMessagesFrom, List.getElem?_cons_succ] at h
      have := ih (start + 1) i m h
      omega

lemma filter_not_isLoading_mkLoadingMessagesFrom (now start : Nat)
    (tags : List String) :
    (mkLoadingMessagesFrom now start tags).filter (fun msg => !msg.isLoading) = [] := by
  rw [List.filter_eq_nil_iff]
  intro m hm
  simp [isLoading_of_mem_mkLoadingMessagesFrom hm]

lemma map_author_mkLoadingMessagesFrom (now : Nat) :
    ∀ (start : Nat) (tags : List String),
      (mkLoadingMessagesFrom now start tags).map Message.author
        = tags.map (fun t => t.drop 1) := by
  intro start tags
  induction tags generalizing start with
  | nil => rfl
  | cons t rest ih => simp [mkLoadingMessagesFrom, mkLoadingMessage, ih]

lemma nodup_ids_mkLoadingMessagesFrom (now : Nat) :
    ∀ (start : Nat) (tags : List String),
      ((mkLoadingMessagesFrom now start tags).map Message.id).Nodup := by
  intro start tags
  induction tags generalizing start with
  | nil => simp [mkLoadingMessagesFrom]
  | cons t rest ih =>
    simp only [mkLoadingMessagesFrom, List.map_cons, List.nodup_cons]
    refine ⟨fun hmem => ?_, ih (start + 1)⟩
    simp only [List.mem_map] at hmem
    obtain ⟨m, hm, hid⟩ := hmem
    obtain ⟨i, tag, hle, rfl⟩ := mem_mkLoadingMessagesFrom hm
    have : i = start := loadingMessageId_inj hid
    omega

lemma handleSend_not_blocked (s : ViewState) (now : Nat) (env : SendFetchOutcome)
    (hpre : sendBlocked s = false) :
    handleSend s now env =
      (match sendMessage env (jsTrim s.content) s.selectedTags defaultSendTimeoutMs with
        | Except.ok resp =>
            ({ afterOptimistic s now with
                history := successHistory (afterOptimistic s now).history
                  (tempUserMessageId now) resp.userMessageId resp.replies
                isLoading := false },
             some (jsTrim s.content, s.selectedTags))
        | Except.error msg =>
            ({ afterOptimistic s now with
                history := failureHistory (afterOptimistic s now).history
                error := some ("Failed to send message: " ++ msg)
                isLoading := false },
             some (jsTrim s.content, s.selectedTags))) := by
  unfold handleSend
  rw [if_neg (by rw [hpre]; exact Bool.false_ne_true)]

lemma successHistory_afterOptimistic (s : ViewState) (now : Nat)
    (serverId : String) (replies : List Message) :
    successHistory (afterOptimistic s now).history (tempUserMessageId now)
        serverId replies
      = ((s.history ++ [mkUserMessage (jsTrim s.content) now]).filter
            (fun m => !m.isLoading)).map
          (fun m => if m.id = tempUserMessageId now
            then { m with id := serverId } else m)
        ++ replies := by
  unfold successHistory afterOptimistic mkLoadingMessages
  simp only [List.filter_append, List.filter_cons]
  rw [filter_not_isLoading_mkLoadingMessagesFrom]
  simp [mkUserMessage]

lemma failureHistory_afterOptimistic (s : ViewState) (now : Nat) :
    failureHistory (afterOptimistic s now).history
      = s.history.filter (fun m => !m.isLoading)
        ++ [mkUserMessage (jsTrim s.content) now] := by
  unfold failureHistory afterOptimistic mkLoadingMessages
  simp only [List.filter_append, List.filter_cons]
  rw [filter_not_isLoading_mkLoadingMessagesFrom]
  simp [mkUserMessage]

lemma map_replace_id_mkLoadingMessagesFrom (now start : Nat)
    (tags : List String) (serverId : String) :
    (mkLoadingMessagesFrom now start tags).map
        (fun m => if m.id = tempUserMessageId now
          then { m with id := serverId } else m)
      = mkLoadingMessagesFrom now start tags := by
  induction tags generalizing start with
  | nil => rfl
  | cons t rest ih =>
    rw [mkLoadingMessagesFrom_cons, List.map_cons, ih (start + 1)]
    have hne : ¬ (mkLoadingMessage now start t).id = tempUserMessageId now :=
      fun h => tempUserMessageId_ne_loadingMessageId now now start h.symm
    rw [if_neg hne]

lemma isLoading_replace_id (tempId serverId : String) (m : Message) :
    (if m.id = tempId then { m with id := serverId } else m).isLoading
      = m.isLoading := by
  split <;> rfl

/-! ## Claim theorems -/

/-- C4: when the trimmed composer text is empty, the tag selection is
empty, or a send is already in flight, `handleSend` is a complete
no-op: every component of the view state is returned unchanged and no
network request is issued. -/
theorem handleSend_blocked_noop (s : ViewState) (now : Nat)
    (env : SendFetchOutcome)
    (h : ((jsTrim s.content == "") || s.selectedTags.isEmpty || s.isLoading) = true) :
    handleSend s now env = (s, none) := by
  have hb : sendBlocked s = true := h
  simp [handleSend, hb]

/-- Witness for C4: a whitespace-only composer with a non-empty
selection and an idle flag leaves the state untouched and issues no
request. -/
theorem handleSend_blocked_noop_witness :
    handleSend ⟨[], "   ", ["@gpt"], false, none⟩ 0
        (SendFetchOutcome.networkError "refused")
      = (⟨[], "   ", ["@gpt"], false, none⟩, none) :=
  handleSend_blocked_noop _ 0 _ (by decide)

/-- C9 counterexample: toggling `"@gpt"` twice in succession from the
selection `["@gpt", "@claude"]` does not return the selection to its
original value (the tag is re-appended at the end instead of its former
position). -/
theorem toggleTag_double_counterexample :
    toggleTag "@gpt" (toggleTag "@gpt" ["@gpt", "@claude"]) ≠ ["@gpt", "@claude"] := by
  decide

/-- C9 (amended): toggling appends an absent tag at the end and removes
a present tag while preserving the relative order of the remaining
tags (the result is a sublist of the original with the counts of every
other tag unchanged); toggling the same tag twice in succession,
starting from a selection in which it is absent, returns the selection
to its original value; and toggling two distinct absent tags in order
produces the selection extended by both in that insertion order. -/
theorem toggleTag_spec (tag : String) (prev : List String) :
    (tag ∉ prev → toggleTag tag prev = prev ++ [tag]) ∧
    (tag ∈ prev →
      tag ∉ toggleTag tag prev ∧
      (toggleTag tag prev).Sublist prev ∧
      (∀ t, t ≠ tag → (toggleTag tag prev).count t = prev.count t)) ∧
    (tag ∉ prev → toggleTag tag (toggleTag tag prev) = prev) ∧
    (∀ t₂, tag ≠ t₂ → tag ∉ prev → t₂ ∉ prev →
      toggleTag t₂ (toggleTag tag prev) = prev ++ [tag, t₂]) := by
  refine ⟨fun h => toggleTag_of_not_mem h, fun h => ?_, fun h => ?_, fun t₂ hne h h₂ => ?_⟩
  · rw [toggleTag_of_mem h]
    refine ⟨?_, List.filter_sublist _, fun t ht => ?_⟩
    · simp
    · rw [List.count_filter]
      simp [ht]
  · rw [toggleTag_of_not_mem h,
      toggleTag_of_mem (List.mem_append_right prev (List.mem_singleton_self tag)),
      List.filter_append, filter_ne_of_not_mem h]
    simp
  · rw [toggleTag_of_not_mem h]
    have h₂' : t₂ ∉ prev ++ [tag] := by
      simp only [List.mem_append, List.mem_singleton]
      rintro (hc | hc)
      · exact h₂ hc
      · exact hne hc.symm
    rw [toggleTag_of_not_mem h₂']
    simp

/-- Witness for C9 (amended): toggling two distinct tags from the empty
selection lists them in insertion order. -/
theorem toggleTag_spec_witness :
    toggleTag "@claude" (toggleTag "@gpt" []) = ["@gpt", "@claude"] :=
  (toggleTag_spec "@gpt" []).2.2.2 "@claude" (by decide) (by decide) (by decide)

/-- C2: under the send precondition, the optimistic phase of
`handleSend` performs a single state update whose history is the old
sequence with exactly one user-authored message appended, followed by
exactly one loading-flagged placeholder per selected tag in selection
order, each attributed to its tag's participant (the marker character
stripped), with timestamps strictly above the user message's timestamp
and strictly increasing along the placeholder list. -/
theorem handleSend_optimistic_append (s : ViewState) (now : Nat)
    (_hpre : sendBlocked s = false) :
    (afterOptimistic s now).history
        = s.history ++ mkUserMessage (jsTrim s.content) now
            :: mkLoadingMessages now s.selectedTags ∧
    (mkUserMessage (jsTrim s.content) now).author = "user" ∧
    (mkUserMessage (jsTrim s.content) now).role = "user" ∧
    (mkUserMessage (jsTrim s.content) now).isLoading = false ∧
    (mkLoadingMessages now s.selectedTags).length = s.selectedTags.length ∧
    (∀ (i : Nat) (tag : String), s.selectedTags[i]? = some tag →
      (mkLoadingMessages now s.selectedTags)[i]?
        = some (Message.mk (loadingMessageId now i) (tag.drop 1) "assistant"
            "Thinking..." (now + i + 1) true)) ∧
    (∀ m ∈ mkLoadingMessages now s.selectedTags,
      (mkUserMessage (jsTrim s.content) now).ts < m.ts ∧ m.isLoading = true) ∧
    (∀ (i j : Nat) (mi mj : Message), i < j →
      (mkLoadingMessages now s.selectedTags)[i]? = some mi →
      (mkLoadingMessages now s.selectedTags)[j]? = some mj →
      mi.ts < mj.ts) := by
  refine ⟨rfl, rfl, rfl, rfl, mkLoadingMessagesFrom_length now 0 s.selectedTags,
    fun i tag h => ?_, fun m hm => ?_, fun i j mi mj hij hi hj => ?_⟩
  · have h2 := mkLoadingMessagesFrom_getElem? now 0 i s.selectedTags tag h
    rw [Nat.zero_add] at h2
    exact h2
  · obtain ⟨k, tag, _, rfl⟩ := mem_mkLoadingMessagesFrom hm
    exact ⟨by show now < now + k + 1; omega, rfl⟩
  · have hi' : (mkLoadingMessagesFrom now 0 s.selectedTags)[i]? = some mi := hi
    have hj' : (mkLoadingMessagesFrom now 0 s.selectedTags)[j]? = some mj := hj
    have hits := ts_of_getElem?_mkLoadingMessagesFrom now 0 s.selectedTags i mi hi'
    have hjts := ts_of_getElem?_mkLoadingMessagesFrom now 0 s.selectedTags j mj hj'
    omega

/-- Witness for C2: with history `[]`, composer `"hello"`, selection
`["@gpt", "@claude"]` and clock 3, the precondition holds and the
optimistic history is the user message followed by the two
placeholders. -/
theorem handleSend_optimistic_append_witness :
    sendBlocked ⟨[], "hello", ["@gpt", "@claude"], false, none⟩ = false ∧
    (afterOptimistic ⟨[], "hello", ["@gpt", "@claude"], false, none⟩ 3).history
      = [] ++ mkUserMessage (jsTrim "hello") 3
          :: mkLoadingMessages 3 ["@gpt", "@claude"] :=
  ⟨by decide,
   (handleSend_optimistic_append ⟨[], "hello", ["@gpt", "@claude"], false, none⟩ 3
      (by decide)).1⟩

/-- C8: under the send precondition, the request issued by `handleSend`
carries exactly the trimmed composer text as `content` and the snapshot
of the current selection, in selection order and with the reserved `@`
marker intact, as `tags`; the marker is stripped only in the display
attribution (`author`) of the placeholders, never before
transmission. -/
theorem handleSend_request_payload (s : ViewState) (now : Nat)
    (env : SendFetchOutcome) (hpre : sendBlocked s = false) :
    (handleSend s now env).2 = some (jsTrim s.content, s.selectedTags) ∧
    (mkLoadingMessages now s.selectedTags).map Message.author
      = s.selectedTags.map (fun t => t.drop 1) := by
  constructor
  · rw [handleSend_not_blocked s now env hpre]
    cases sendMessage env (jsTrim s.content) s.selectedTags defaultSendTimeoutMs <;> rfl
  · exact map_author_mkLoadingMessagesFrom now 0 s.selectedTags

/-- Witness for C8: composer text `"  hi  "` with selection `["@gpt"]`
issues the request `content = "hi"`, `tags = ["@gpt"]`. -/
theorem handleSend_request_payload_witness :
    sendBlocked ⟨[], "  hi  ", ["@gpt"], false, none⟩ = false ∧
    (handleSend ⟨[], "  hi  ", ["@gpt"], false, none⟩ 0
        (SendFetchOutcome.networkError "x")).2 = some ("hi", ["@gpt"]) :=
  ⟨by decide, by
    have h := (handleSend_request_payload ⟨[], "  hi  ", ["@gpt"], false, none⟩ 0
      (SendFetchOutcome.networkError "x") (by decide)).1
    rw [h]
    decide⟩

/-- C5: `sendMessage` enforces a caller-configurable timeout whose
default is 60 000 ms; whenever the response has not arrived within
`timeoutMs`, the in-flight request is aborted and the call rejects
with the cancellation error instead of hanging. -/
theorem sendMessage_timeout_aborts (content : String) (tags : List String)
    (timeoutMs arrivalMs status : Nat) (bodyText : Option String)
    (bodyJson : Option SendResponse) (h : timeoutMs < arrivalMs) :
    sendMessage (SendFetchOutcome.response arrivalMs status bodyText bodyJson)
        content tags timeoutMs = Except.error abortErrorMessage ∧
    defaultSendTimeoutMs = 60000 :=
  ⟨by simp [sendMessage, h], rfl⟩

/-- Witness for C5: a response arriving after 70 000 ms is aborted
under the default 60 000 ms timeout. -/
theorem sendMessage_timeout_aborts_witness :
    sendMessage (SendFetchOutcome.response 70000 200 none none) "hi" ["@gpt"]
        defaultSendTimeoutMs = Except.error abortErrorMessage ∧
    defaultSendTimeoutMs = 60000 :=
  sendMessage_timeout_aborts "hi" ["@gpt"] defaultSendTimeoutMs 70000 200 none none
    (by decide)

/-- C7: a `sendMessage` whose response arrives in time with a non-2xx
status rejects with a message carrying the status code followed by the
body text when the body is readable; when reading the body fails (the
text is replaced by `""`), the call still rejects with the status code
in the message — the body-read failure does not mask the HTTP-status
error. -/
theorem sendMessage_http_failure (content : String) (tags : List String)
    (timeoutMs arrivalMs status : Nat) (bodyText : Option String)
    (bodyJson : Option SendResponse)
    (harr : arrivalMs ≤ timeoutMs) (hstatus : okStatus status = false) :
    (∀ t, bodyText = some t →
      sendMessage (SendFetchOutcome.response arrivalMs status bodyText bodyJson)
          content tags timeoutMs
        = Except.error ("POST /send failed: " ++ Nat.repr status ++ " " ++ t)) ∧
    (bodyText = none →
      sendMessage (SendFetchOutcome.response arrivalMs status bodyText bodyJson)
          content tags timeoutMs
        = Except.error ("POST /send failed: " ++ Nat.repr status ++ " ")) := by
  have hneg : ¬ (timeoutMs < arrivalMs) := by omega
  constructor
  · intro t ht
    subst ht
    simp [sendMessage, hneg, hstatus]
  · intro ht
    subst ht
    simp [sendMessage, hneg, hstatus]

/-- Witness for C7: a 500 response with readable body `"boom"` and a
500 response with an unreadable body both reject with the status code
in the message. -/
theorem sendMessage_http_failure_witness :
    sendMessage (SendFetchOutcome.response 0 500 (some "boom") none) "hi" ["@gpt"] 60000
      = Except.error ("POST /send failed: " ++ Nat.repr 500 ++ " " ++ "boom") ∧
    sendMessage (SendFetchOutcome.response 0 500 none none) "hi" ["@gpt"] 60000
      = Except.error ("POST /send failed: " ++ Nat.repr 500 ++ " ") :=
  ⟨(sendMessage_http_failure "hi" ["@gpt"] 60000 0 500 (some "boom") none
      (by decide) (by decide)).1 "boom" rfl,
   (sendMessage_http_failure "hi" ["@gpt"] 60000 0 500 none none
      (by decide) (by decide)).2 rfl⟩

/-- C1: on a successful send, the single success state transition
leaves the history equal to: the entries present before the response
with every loading-flagged entry removed and the entry carrying the
temporary user-message id re-identified (matched by id, not content) to
the server-issued `userMessageId`, followed by the server's replies in
order; afterwards the sequence holds no loading-flagged entry (the
server's replies being non-loading, per the data model). -/
theorem handleSend_success_reconciliation (s : ViewState) (now : Nat)
    (env : SendFetchOutcome) (resp : SendResponse)
    (hpre : sendBlocked s = false)
    (hok : sendMessage env (jsTrim s.content) s.selectedTags defaultSendTimeoutMs
      = Except.ok resp)
    (hreplies : ∀ m ∈ resp.replies, m.isLoading = false) :
    (handleSend s now env).1.history
      = ((s.history ++ [mkUserMessage (jsTrim s.content) now]).filter
            (fun m => !m.isLoading)).map
          (fun m => if m.id = tempUserMessageId now
            then { m with id := resp.userMessageId } else m)
        ++ resp.replies ∧
    ∀ m ∈ (handleSend s now env).1.history, m.isLoading = false := by
  have hrw := handleSend_not_blocked s now env hpre
  rw [hok] at hrw
  have hhist : (handleSend s now env).1.history
      = ((s.history ++ [mkUserMessage (jsTrim s.content) now]).filter
            (fun m => !m.isLoading)).map
          (fun m => if m.id = tempUserMessageId now
            then { m with id := resp.userMessageId } else m)
        ++ resp.replies := by
    rw [hrw]
    exact successHistory_afterOptimistic s now resp.userMessageId resp.replies
  refine ⟨hhist, fun m hm => ?_⟩
  rw [hhist] at hm
  rcases List.mem_append.mp hm with hm | hm
  · obtain ⟨m', hm', rfl⟩ := List.mem_map.mp hm
    have hload := List.of_mem_filter hm'
    rw [isLoading_replace_id]
    simpa using hload
  · exact hreplies m hm

/-- Witness for C1: an empty history, composer `"hi"`, selection
`["@gpt"]`, and a 200 response carrying `userMessageId = "u1"` and two
replies yields the reconciled history. -/
theorem handleSend_success_reconciliation_witness :
    sendBlocked (ViewState.mk [] "hi" ["@gpt"] false none) = false ∧
    (handleSend (ViewState.mk [] "hi" ["@gpt"] false none) 1
        (SendFetchOutcome.response 0 200 none
          (some (SendResponse.mk "u1"
            [Message.mk "r1" "gpt" "assistant" "yo" 5 false,
             Message.mk "r2" "claude" "assistant" "hey" 6 false])))).1.history
      = (([] ++ [mkUserMessage (jsTrim "hi") 1]).filter
            (fun (m : Message) => !m.isLoading)).map
          (fun (m : Message) => if m.id = tempUserMessageId 1
            then { m with id := "u1" } else m)
        ++ [Message.mk "r1" "gpt" "assistant" "yo" 5 false,
            Message.mk "r2" "claude" "assistant" "hey" 6 false] :=
  ⟨by decide,
   (handleSend_success_reconciliation (ViewState.mk [] "hi" ["@gpt"] false none) 1
      (SendFetchOutcome.response 0 200 none
        (some (SendResponse.mk "u1"
          [Message.mk "r1" "gpt" "assistant" "yo" 5 false,
           Message.mk "r2" "claude" "assistant" "hey" 6 false])))
      (SendResponse.mk "u1"
        [Message.mk "r1" "gpt" "assistant" "yo" 5 false,
         Message.mk "r2" "claude" "assistant" "hey" 6 false])
      (by decide) rfl (by decide)).1⟩

/-- C3: for every send that passes the precondition, the in-flight flag
is false once the handler completes, whatever the outcome; and on every
failed send (timeout, transport failure, non-2xx status, or decode
failure) the final history is the previous non-loading entries followed
by the optimistic user message retained unchanged, no loading-flagged
entry survives, and the error state is set to a non-empty message
incorporating the underlying failure message. -/
theorem handleSend_failure_rollback (s : ViewState) (now : Nat)
    (env : SendFetchOutcome) (hpre : sendBlocked s = false) :
    (handleSend s now env).1.isLoading = false ∧
    ∀ msg, sendMessage env (jsTrim s.content) s.selectedTags defaultSendTimeoutMs
        = Except.error msg →
      (handleSend s now env).1.history
          = s.history.filter (fun m => !m.isLoading)
            ++ [mkUserMessage (jsTrim s.content) now] ∧
      mkUserMessage (jsTrim s.content) now ∈ (handleSend s now env).1.history ∧
      (∀ m ∈ (handleSend s now env).1.history, m.isLoading = false) ∧
      (handleSend s now env).1.error
        = some ("Failed to send message: " ++ msg) ∧
      ("Failed to send message: " ++ msg) ≠ "" := by
  have hrw := handleSend_not_blocked s now env hpre
  constructor
  · rw [hrw]
    cases sendMessage env (jsTrim s.content) s.selectedTags defaultSendTimeoutMs <;> rfl
  · intro msg herr
    rw [herr] at hrw
    have hhist : (handleSend s now env).1.history
        = s.history.filter (fun m => !m.isLoading)
          ++ [mkUserMessage (jsTrim s.content) now] := by
      rw [hrw]
      exact failureHistory_afterOptimistic s now
    refine ⟨hhist, ?_, fun m hm => ?_, by rw [hrw], ?_⟩
    · rw [hhist]
      exact List.mem_append_right _ (List.mem_singleton_self _)
    · rw [hhist] at hm
      rcases List.mem_append.mp hm with hm | hm
      · simpa using List.of_mem_filter hm
      · rw [List.mem_singleton.mp hm]
        rfl
    · intro hcontra
      have hd := congrArg String.data hcontra
      rw [String.data_append] at hd
      exact absurd hd (by simp)

/-- Witness for C3: a transport failure `"boom"` rolls the placeholders
back, keeps the optimistic user message, and sets the error banner. -/
theorem handleSend_failure_rollback_witness :
    sendBlocked (ViewState.mk [] "hi" ["@gpt"] false none) = false ∧
    (handleSend (ViewState.mk [] "hi" ["@gpt"] false none) 1
        (SendFetchOutcome.networkError "boom")).1.history
      = ([] : List Message).filter (fun m => !m.isLoading)
        ++ [mkUserMessage (jsTrim "hi") 1] ∧
    (handleSend (ViewState.mk [] "hi" ["@gpt"] false none) 1
        (SendFetchOutcome.networkError "boom")).1.error
      = some ("Failed to send message: " ++ "boom") ∧
    (handleSend (ViewState.mk [] "hi" ["@gpt"] false none) 1
        (SendFetchOutcome.networkError "boom")).1.isLoading = false :=
  ⟨by decide,
   ((handleSend_failure_rollback (ViewState.mk [] "hi" ["@gpt"] false none) 1
      (SendFetchOutcome.networkError "boom") (by decide)).2 "boom" rfl).1,
   ((handleSend_failure_rollback (ViewState.mk [] "hi" ["@gpt"] false none) 1
      (SendFetchOutcome.networkError "boom") (by decide)).2 "boom" rfl).2.2.2.1,
   (handleSend_failure_rollback (ViewState.mk [] "hi" ["@gpt"] false none) 1
      (SendFetchOutcome.networkError "boom") (by decide)).1⟩

/-- C6 counterexample: a reset response with success status 200 whose
body does not parse as JSON takes the failure path — the history is
left untouched and the error is set — so success is not determined by
the HTTP status alone, contrary to the claim that the body is ignored
beyond the status. -/
theorem handleReset_status_only_counterexample :
    (handleReset (ViewState.mk [Message.mk "m1" "gpt" "assistant" "old" 1 false]
        "" [] false none) (ResetFetchOutcome.response 200 false)).history ≠ [] ∧
    (handleReset (ViewState.mk [Message.mk "m1" "gpt" "assistant" "old" 1 false]
        "" [] false none) (ResetFetchOutcome.response 200 false)).error ≠ none := by
  decide

/-- C6 (amended): when `resetChat` succeeds, the reset flow empties the
message sequence and clears the error regardless of prior content; when
it fails, it sets the error state and leaves the sequence untouched;
and for a response whose body parses as JSON the call's success is
determined exactly by the HTTP status being in the success range — the
decoded body value itself is ignored (a body that fails to parse,
however, fails the call despite a success status). -/
theorem handleReset_spec (s : ViewState) (env : ResetFetchOutcome) :
    (resetChat env = Except.ok () →
      handleReset s env = { s with history := [], error := none }) ∧
    (∀ msg, resetChat env = Except.error msg →
      handleReset s env
          = { s with error := some ("Failed to reset chat: " ++ msg) } ∧
      (handleReset s env).history = s.history) ∧
    (∀ status, env = ResetFetchOutcome.response status true →
      (resetChat env = Except.ok () ↔ okStatus status = true)) := by
  refine ⟨fun h => ?_, fun msg h => ?_, fun status henv => ?_⟩
  · unfold handleReset
    rw [h]
  · unfold handleReset
    rw [h]
    exact ⟨rfl, rfl⟩
  · subst henv
    unfold resetChat
    by_cases hok : okStatus status
    · simp [hok]
    · simp [hok]

/-- Witness for C6 (amended): a 204 success response with a JSON body
empties a non-trivial history and clears a prior error; a network
failure leaves the history in place and sets the error. -/
theorem handleReset_spec_witness :
    handleReset (ViewState.mk [Message.mk "m1" "gpt" "assistant" "old" 1 false]
        "hi" ["@gpt"] false (some "err")) (ResetFetchOutcome.response 204 true)
      = ViewState.mk [] "hi" ["@gpt"] false none ∧
    handleReset (ViewState.mk [Message.mk "m1" "gpt" "assistant" "old" 1 false]
        "hi" ["@gpt"] false none) (ResetFetchOutcome.networkError "down")
      = ViewState.mk [Message.mk "m1" "gpt" "assistant" "old" 1 false]
          "hi" ["@gpt"] false (some ("Failed to reset chat: " ++ "down")) :=
  ⟨(handleReset_spec (ViewState.mk [Message.mk "m1" "gpt" "assistant" "old" 1 false]
      "hi" ["@gpt"] false (some "err")) (ResetFetchOutcome.response 204 true)).1
      rfl,
   ((handleReset_spec (ViewState.mk [Message.mk "m1" "gpt" "assistant" "old" 1 false]
      "hi" ["@gpt"] false none) (ResetFetchOutcome.networkError "down")).2.1
      "down" rfl).1⟩

/-- C10: within a single send the optimistic user-message id (prefix
`temp_`) and the placeholder ids (prefix `loading_`, embedding the
placeholder's index) are pairwise distinct, and consequently the
success-path replacement — matching entries by equality with the
temporary user-message id — rewrites exactly the optimistic user
message among the entries created by the send and never one of its
placeholders. -/
theorem send_ids_distinct (now : Nat) (text serverId : String)
    (tags : List String) :
    ((mkUserMessage text now).id
        :: (mkLoadingMessages now tags).map Message.id).Nodup ∧
    (mkUserMessage text now :: mkLoadingMessages now tags).map
        (fun m => if m.id = tempUserMessageId now
          then { m with id := serverId } else m)
      = Message.mk serverId "user" "user" text now false
          :: mkLoadingMessages now tags := by
  constructor
  · rw [List.nodup_cons]
    refine ⟨fun hmem => ?_, nodup_ids_mkLoadingMessagesFrom now 0 tags⟩
    simp only [List.mem_map] at hmem
    obtain ⟨m, hm, hid⟩ := hmem
    obtain ⟨i, tag, _, rfl⟩ := mem_mkLoadingMessagesFrom hm
    exact tempUserMessageId_ne_loadingMessageId now now i hid.symm
  · unfold mkLoadingMessages
    rw [List.map_cons, map_replace_id_mkLoadingMessagesFrom now 0 tags serverId]
    congr 1
    rw [if_pos (show (mkUserMessage text now).id = tempUserMessageId now from rfl)]
    rfl

end ChatClient
